import Mathlib

/-!
Verification of the Remote Media Job lifecycle manager and Structured
Response Extractor of `updatedStreamlit.py` (3DSpatialAgents).

Text is modelled as `List Char`.  Python's `str.strip()` and the regex
class `\s` are modelled over the ASCII whitespace characters, which is
the fragment both agree on.
-/

deriving instance DecidableEq for Except

/-- The ASCII whitespace characters recognised by Python's `str.strip()`
and by the regex class `\s`. -/
def pyIsSpace (c : Char) : Bool :=
  c = ' ' || c = '\t' || c = '\n' || c = '\r' || c = '\x0b' || c = '\x0c'

/-- Python `str.strip()`: drop whitespace from both ends. -/
def pyStrip (l : List Char) : List Char :=
  (((l.dropWhile pyIsSpace).reverse).dropWhile pyIsSpace).reverse

/-- The three-backtick fence delimiter (source line 53). -/
def ticks : List Char := ['\x60', '\x60', '\x60']

/-- The optional fence language tag recognised by the regex
`(?:json)?` (source line 53). -/
def jsonTag : List Char := ['j', 's', 'o', 'n']

/-- `re.search` for the literal `\x60\x60\x60`, returning the text right after the
first occurrence of the fence (leftmost match of the opening delimiter of
the pattern on source line 53). -/
def dropToTicks : List Char → Option (List Char)
  | [] => none
  | c :: rest =>
    if c = '\x60' ∧ rest.take 2 = ['\x60', '\x60'] then some (rest.drop 2)
    else dropToTicks rest

/-- The text strictly before the first occurrence of the `\x60\x60\x60` fence,
or `none` when there is no fence: this is how the lazy group
`([\s\S]*?)` followed by `\s*` and the closing fence resolves, the
trailing whitespace being stripped afterwards by the caller. -/
def takeToTicks : List Char → Option (List Char)
  | [] => none
  | c :: rest =>
    if c = '\x60' ∧ rest.take 2 = ['\x60', '\x60'] then some []
    else (takeToTicks rest).map (fun l => c :: l)

/-- `re.search(r"\x60\x60\x60(?:json)?\s*([\s\S]*?)\s*\x60\x60\x60", text)` followed by
`.group(1).strip()` (source lines 53-55): locate the first fence, strip
an optional literal `json` tag, skip whitespace greedily, then take the
lazily-matched group up to the next fence; the surrounding `\s*` of the
pattern and the final `.strip()` together amount to stripping the group. -/
def codeBlockSearch (text : List Char) : Option (List Char) :=
  match dropToTicks text with
  | none => none
  | some afterOpen =>
    let afterTag := if afterOpen.take 4 = jsonTag then afterOpen.drop 4 else afterOpen
    let afterWs := afterTag.dropWhile pyIsSpace
    match takeToTicks afterWs with
    | none => none
    | some inner => some (pyStrip inner)

/-- The lazy tail of `re.search(r'(\[.*?\])', text, re.DOTALL)`: the span
up to and including the first `]`, or `none` when no `]` follows. -/
def spanTo : List Char → Option (List Char)
  | [] => none
  | c :: rest =>
    if c = ']' then some [']']
    else (spanTo rest).map (fun l => c :: l)

/-- `re.search(r'(\[.*?\])', text, re.DOTALL)` (source line 60): the
leftmost match starts at the first `[` that is followed by a `]`; when the
first `[` has no later `]`, no later `[` has one either, so the whole
search fails. -/
def listSearchGo : List Char → Option (List Char)
  | [] => none
  | c :: rest =>
    if c = '[' then (spanTo rest).map (fun l => c :: l)
    else listSearchGo rest

/-- The `ValueError`s raised by `extract_json_payload` (source lines 51
and 64): an empty response, or no JSON payload found, the latter carrying
`raw_text[:100]` for diagnostics. -/
inductive ExtractErr where
  | emptyResponse : ExtractErr
  | noJsonFound : List Char → ExtractErr
deriving DecidableEq

/-- `extract_json_payload` (source lines 47-64): strip the raw text, fail
on empty input, then try in order a fenced code block, the whole
bracket-delimited text, and the first `[...]` span; otherwise fail with
`NoJsonFound` carrying the first 100 characters of the original text. -/
def extract_json_payload (raw : List Char) : Except ExtractErr (List Char) :=
  let text := pyStrip raw
  if text = [] then .error .emptyResponse
  else
    match codeBlockSearch text with
    | some g => .ok g
    | none =>
      if text.head? = some '[' ∧ text.getLast? = some ']' then .ok text
      else
        match listSearchGo text with
        | some g => .ok (pyStrip g)
        | none => .error (.noJsonFound (raw.take 100))

example : extract_json_payload ("```json\n[1, 2]\n```".toList) = .ok ("[1, 2]".toList) := by decide
example : extract_json_payload ("  [7]  ".toList) = .ok ("[7]".toList) := by decide
example : extract_json_payload ("see [a] and [b]".toList) = .ok ("[a]".toList) := by decide
example : extract_json_payload ("nothing here".toList) = .error (.noJsonFound ("nothing here".toList)) := by decide
example : extract_json_payload ("   ".toList) = .error .emptyResponse := by decide
example : extract_json_payload ("```x```".toList) = .ok ("x".toList) := by decide
example : extract_json_payload ("```python\n[1, 2]\n```".toList) = .ok ("python\n[1, 2]".toList) := by decide
example : extract_json_payload ("[x ```[1]``` y]".toList) = .ok ("[1]".toList) := by decide
example : extract_json_payload ("``````".toList) = .ok ([]) := by decide
example : extract_json_payload ("`````".toList) = .error (.noJsonFound ("`````".toList)) := by decide
example : extract_json_payload ("`````x`````".toList) = .ok ("``x".toList) := by decide
example : extract_json_payload ("```json```".toList) = .ok ([]) := by decide
example : extract_json_payload ("```jso```".toList) = .ok ("jso".toList) := by decide
example : extract_json_payload ("``` ```x```".toList) = .ok ([]) := by decide
example : extract_json_payload ("``` json\n[1]\n```".toList) = .ok ("json\n[1]".toList) := by decide
example : extract_json_payload ("```jsonjson```".toList) = .ok ("json".toList) := by decide
example : extract_json_payload ("] [ x".toList) = .error (.noJsonFound ("] [ x".toList)) := by decide
example : extract_json_payload ("a```b".toList) = .error (.noJsonFound ("a```b".toList)) := by decide
example : extract_json_payload ("pre [0] ```json [1] ``` post".toList) = .ok ("[1]".toList) := by decide
example : extract_json_payload ("[".toList) = .error (.noJsonFound ("[".toList)) := by decide
example : extract_json_payload ("[]".toList) = .ok ("[]".toList) := by decide
example : extract_json_payload ("```\n\n  [9] \t\n```".toList) = .ok ("[9]".toList) := by decide
example : extract_json_payload ("x``` only one".toList) = .error (.noJsonFound ("x``` only one".toList)) := by decide
example : extract_json_payload ("```json\n".toList) = .error (.noJsonFound ("```json\n".toList)) := by decide
example : extract_json_payload ("```[".toList) = .error (.noJsonFound ("```[".toList)) := by decide
example : extract_json_payload ("tail ] then [ open".toList) = .error (.noJsonFound ("tail ] then [ open".toList)) := by decide
example : extract_json_payload ("[a][b]".toList) = .ok ("[a][b]".toList) := by decide
example : extract_json_payload ("```a``````b```".toList) = .ok ("a".toList) := by decide

/-- No `[` in the text is followed by a later `]`: the input has no
`[...]` span. -/
def SpanFree (l : List Char) : Prop :=
  ∀ a b, l = a ++ '[' :: b → ']' ∉ b

/-- The `ValueError`s that the `except ValueError` handler on source
line 198 can catch: an extraction failure raised by
`extract_json_payload`, or a `json.JSONDecodeError` (a `ValueError`
subclass) raised by `json.loads`. -/
inductive PyErr where
  | extractErr : ExtractErr → PyErr
  | malformedJson : PyErr
deriving DecidableEq

/-- What the Structured Detection branch displays (source lines 192-200):
either the parsed JSON value together with the extracted JSON text
(`st.json(json.loads(raw_json))` and `st.code(raw_json)`), or the
fallback of a warning naming the failure plus the original raw response
text (`st.warning(...)` and `st.markdown(response.text)`). -/
inductive StructuredOutcome (α : Type) where
  | displayedJson : α → List Char → StructuredOutcome α
  | rawFallback : List Char → PyErr → StructuredOutcome α
deriving DecidableEq

/-- The Structured Detection branch of `main` (source lines 192-200):
extract the JSON payload from the response text, parse it with
`json.loads` (the external standard-library collaborator, passed in as
`jsonLoads`), and display the parse verbatim; any `ValueError` from
either step is caught and degrades the result to the original raw text
plus the failure reason. -/
def structuredDetectionBranch {α : Type} (jsonLoads : List Char → Except Unit α)
    (respText : List Char) : StructuredOutcome α :=
  match extract_json_payload respText with
  | .error e => .rawFallback respText (.extractErr e)
  | .ok rawJson =>
    match jsonLoads rawJson with
    | .error _ => .rawFallback respText .malformedJson
    | .ok v => .displayedJson v rawJson

/-- A `json.loads` stand-in that parses to 15 well-formed items. -/
def loads15 : List Char → Except Unit (List ℕ) :=
  fun _ => .ok (List.range 15)

/-- A `json.loads` stand-in that parses to one item. -/
def loadsOne : List Char → Except Unit (List ℕ) :=
  fun _ => .ok [7]

/-- A `json.loads` stand-in that always raises `json.JSONDecodeError`. -/
def loadsFail : List Char → Except Unit (List ℕ) :=
  fun _ => .error ()

/-- The remote file states of the upload backend, per the collaborator
contract of spec section 6 (`get_state` returns PROCESSING, READY or
FAILED); the source compares `uploaded_file.state.name` against the
string literals PROCESSING and FAILED (source lines 85 and 89). -/
inductive FState where
  | PROCESSING : FState
  | READY : FState
  | FAILED : FState
deriving DecidableEq

/-- The readiness-polling loop of `upload_and_process_video` (source
lines 85-87): while the state is PROCESSING, sleep and re-query the
remote state.  `poll k` is the state returned by the k-th
`client.files.get` call; `fuel` bounds how many polls the unrolling may
still take, with `none` meaning the loop is still running after `fuel`
polls — the source itself has no bound of any kind. -/
def awaitLoop (poll : ℕ → FState) (fuel k : ℕ) (s : FState) : Option FState :=
  if s = .PROCESSING then
    match fuel with
    | 0 => none
    | fuel' + 1 => awaitLoop poll fuel' (k + 1) (poll k)
  else some s

/-- The tail of `upload_and_process_video` after the polling loop
(source lines 85-94): run the loop from the state observed at upload
time, then `return None` after an `st.error` if the final state is
FAILED, and otherwise return the file.  The outer `none` means the loop
was still running after `fuel` polls; `some none` is the Python
`return None` (failure reported, no exception); `some (some s)` is the
returned file in state `s`. -/
def upload_and_process_video (initState : FState) (poll : ℕ → FState)
    (fuel : ℕ) : Option (Option FState) :=
  (awaitLoop poll fuel 0 initState).map (fun s => if s = .FAILED then none else some s)

/-- A poll sequence whose first two polls are PROCESSING and whose third
poll is FAILED. -/
def demoPoll : ℕ → FState :=
  fun n => if n < 2 then .PROCESSING else .FAILED

/-- A remote side that reports PROCESSING on every poll. -/
def constProcessing : ℕ → FState :=
  fun _ => .PROCESSING

/-- A poll sequence that reports READY from the third poll on. -/
def demoPollReady : ℕ → FState :=
  fun n => if n < 2 then .PROCESSING else .READY

/-- The Gemini file handle stored in `st.session_state.gemini_video_file`:
the caller-visible fields used by the slot logic (source lines 126-136)
are `display_name` (the uploaded file's name) and `name` (the remote
resource id passed to `client.files.delete`), plus the remote state. -/
structure GFile where
  display_name : List Char
  name : List Char
  state : FState
deriving DecidableEq

/-- An error raised by `client.files.delete`. -/
inductive DeleteErr where
  | apiError : DeleteErr
deriving DecidableEq

/-- The `try: client.files.delete(...) except Exception: pass` of source
lines 129-133: whatever the delete call produced, the handler discards
it and control continues. -/
def tryDelete (deleteResult : Except DeleteErr Unit) : Unit :=
  match deleteResult with
  | .ok _ => ()
  | .error _ => ()

/-- The observable effect of one pass through the re-upload logic:
the new contents of the session slot, whether a delete of the previous
remote asset was issued, and whether an upload of the new bytes was
performed. -/
structure SlotOutcome where
  slot : Option GFile
  deleteAttempted : Bool
  uploadPerformed : Bool
deriving DecidableEq

/-- The re-upload slot logic of `main` (source lines 123-136): when the
slot is empty or the stored `display_name` differs from the newly chosen
file's name, delete the previous remote asset best-effort (errors
swallowed by `tryDelete`) and upload the new file, storing the result;
otherwise leave the slot untouched and perform no upload.
`uploadAndProcess name bytes` is the result of
`upload_and_process_video` for the new file. -/
def handleUploadSlot (slot : Option GFile) (newName newBytes : List Char)
    (deleteResult : Except DeleteErr Unit)
    (uploadAndProcess : List Char → List Char → Option GFile) : SlotOutcome :=
  match slot with
  | none =>
    { slot := uploadAndProcess newName newBytes
      deleteAttempted := false
      uploadPerformed := true }
  | some f =>
    if f.display_name ≠ newName then
      let _ := tryDelete deleteResult
      { slot := uploadAndProcess newName newBytes
        deleteAttempted := true
        uploadPerformed := true }
    else
      { slot := some f
        deleteAttempted := false
        uploadPerformed := false }

/-- A concrete upload backend for witnesses: uploading succeeds and the
stored handle records the uploaded name and bytes. -/
def uploadStub : List Char → List Char → Option GFile :=
  fun nm bytes => some { display_name := nm, name := bytes, state := .READY }

/-- A concrete stored handle for witnesses. -/
def fileA : GFile :=
  { display_name := ("a.mp4").toList, name := ("files/xyz").toList, state := .READY }

/-- Once the loop has stopped at a non-PROCESSING state, it returns that
state whatever fuel remains. -/
theorem awaitLoop_exit (poll : ℕ → FState) (fuel k : ℕ) (s : FState)
    (hs : s ≠ .PROCESSING) : awaitLoop poll fuel k s = some s := by
  unfold awaitLoop
  simp [hs]

/-- Unrolling the polling loop by one poll. -/
theorem awaitLoop_succ (poll : ℕ → FState) (n k : ℕ) :
    awaitLoop poll (n + 1) k .PROCESSING = awaitLoop poll n (k + 1) (poll k) := by
  conv_lhs => unfold awaitLoop
  simp

/-- Whenever the polling loop stops, the state it stops at is not
PROCESSING. -/
theorem awaitLoop_not_processing (poll : ℕ → FState) :
    ∀ fuel k s r, awaitLoop poll fuel k s = some r → r ≠ .PROCESSING := by
  intro fuel
  induction fuel with
  | zero =>
    intro k s r h
    by_cases hs : s = .PROCESSING
    · simp [awaitLoop, hs] at h
    · rw [awaitLoop_exit poll 0 k s hs] at h
      intro hr
      exact hs (by rw [Option.some_inj.mp h, hr])
  | succ n ih =>
    intro k s r h
    by_cases hs : s = .PROCESSING
    · subst hs
      rw [awaitLoop_succ] at h
      exact ih (k + 1) (poll k) r h
    · rw [awaitLoop_exit poll _ k s hs] at h
      intro hr
      exact hs (by rw [Option.some_inj.mp h, hr])

/-- If some poll within the fuel bound reports a non-PROCESSING state,
the loop stops. -/
theorem awaitLoop_terminates_aux (poll : ℕ → FState) :
    ∀ fuel k, (∃ j, j < fuel ∧ poll (k + j) ≠ .PROCESSING) →
      ∃ r, awaitLoop poll fuel k .PROCESSING = some r := by
  intro fuel
  induction fuel with
  | zero =>
    rintro k ⟨j, hj, _⟩
    omega
  | succ n ih =>
    rintro k ⟨j, hj, hp⟩
    rw [awaitLoop_succ]
    by_cases h0 : poll k = .PROCESSING
    · rw [h0]
      have hj0 : j ≠ 0 := by
        intro h
        subst h
        simp at hp
        exact hp h0
      exact ih (k + 1) ⟨j - 1, by omega, by
        have : k + 1 + (j - 1) = k + j := by omega
        rw [this]
        exact hp⟩
    · exact ⟨poll k, awaitLoop_exit poll n (k + 1) (poll k) h0⟩

/-- C2 (counterexample): against a remote side that reports PROCESSING
on every poll, the readiness-polling loop of
`upload_and_process_video` never stops, however many polls it is
allowed: the source has no timeout bound. -/
theorem await_ready_no_timeout_counterexample :
    ¬ ∃ fuel : ℕ, (awaitLoop constProcessing fuel 0 .PROCESSING).isSome = true := by
  rintro ⟨fuel, hf⟩
  have key : ∀ n k, awaitLoop constProcessing n k .PROCESSING = none := by
    intro n
    induction n with
    | zero => intro k; simp [awaitLoop]
    | succ m ih =>
      intro k
      rw [awaitLoop_succ]
      exact ih (k + 1)
  rw [key fuel 0] at hf
  simp at hf

/-- C2 (amended): the polling loop of `upload_and_process_video` has no
timeout bound; it terminates exactly when some remote poll reports a
non-PROCESSING state, in which case it returns a non-PROCESSING state
(rather than converting an overrun into a timeout error). -/
theorem await_ready_terminates_of_poll (poll : ℕ → FState) (n : ℕ)
    (h : poll n ≠ .PROCESSING) :
    ∃ r, awaitLoop poll (n + 1) 0 .PROCESSING = some r ∧ r ≠ .PROCESSING := by
  obtain ⟨r, hr⟩ := awaitLoop_terminates_aux poll (n + 1) 0 ⟨n, by omega, by simpa using h⟩
  exact ⟨r, hr, awaitLoop_not_processing poll _ _ _ _ hr⟩

/-- Witness for `await_ready_terminates_of_poll` at the concrete poll
sequence whose third poll is FAILED. -/
theorem await_ready_terminates_of_poll_witness :
    demoPoll 2 ≠ FState.PROCESSING ∧
    ∃ r, awaitLoop demoPoll 3 0 .PROCESSING = some r ∧ r ≠ .PROCESSING :=
  ⟨by decide, await_ready_terminates_of_poll demoPoll 2 (by decide)⟩

/-- C9: whenever `upload_and_process_video` produces an outcome, that
outcome is either a file in state READY, or the Python `return None`
taken exactly when the loop stopped at FAILED (the failure is reported
via `st.error` and returned, not raised); a file still in state
PROCESSING is never returned. -/
theorem await_ready_never_processing (initState : FState) (poll : ℕ → FState)
    (fuel : ℕ) (out : Option FState)
    (h : upload_and_process_video initState poll fuel = some out) :
    out = some .READY ∨ (out = none ∧ awaitLoop poll fuel 0 initState = some .FAILED) := by
  unfold upload_and_process_video at h
  cases hl : awaitLoop poll fuel 0 initState with
  | none => rw [hl] at h; simp at h
  | some s =>
    rw [hl] at h
    simp at h
    have hs := awaitLoop_not_processing poll fuel 0 initState s hl
    cases s with
    | PROCESSING => exact absurd rfl hs
    | READY => left; simp at h; exact h.symm
    | FAILED => right; simp at h; exact ⟨h.symm, rfl⟩

/-- Witness for `await_ready_never_processing`: upload succeeds, the
first two polls report PROCESSING and the third reports FAILED; the
outcome is the FAILED report (`return None`), produced without raising. -/
theorem await_ready_never_processing_witness :
    upload_and_process_video .PROCESSING demoPoll 5 = some none ∧
    ((none : Option FState) = some .READY ∨
      ((none : Option FState) = none ∧ awaitLoop demoPoll 5 0 .PROCESSING = some .FAILED)) :=
  ⟨by decide, await_ready_never_processing .PROCESSING demoPoll 5 none (by decide)⟩

/-- C5: resubmitting while the slot holds an asset with the same
`display_name` is a no-op: the same handle stays in the slot, no delete
is issued and no upload is performed — whatever the new bytes are, and
in particular when they are unchanged.  (A FAILED upload leaves `None`
in the slot, so a held handle is never FAILED; the hypothesis records
the claim's side condition.) -/
theorem submit_idempotent (f : GFile) (newName newBytes : List Char)
    (deleteResult : Except DeleteErr Unit)
    (uploadAndProcess : List Char → List Char → Option GFile)
    (hname : f.display_name = newName) (_hstate : f.state ≠ .FAILED) :
    handleUploadSlot (some f) newName newBytes deleteResult uploadAndProcess =
      { slot := some f, deleteAttempted := false, uploadPerformed := false } := by
  simp [handleUploadSlot, hname]

/-- Witness for `submit_idempotent` at a concrete held handle. -/
theorem submit_idempotent_witness :
    (fileA.display_name = ("a.mp4").toList ∧ fileA.state ≠ .FAILED) ∧
    handleUploadSlot (some fileA) (("a.mp4").toList) (("bytes2").toList) (.ok ()) uploadStub =
      { slot := some fileA, deleteAttempted := false, uploadPerformed := false } :=
  ⟨⟨by decide, by decide⟩, submit_idempotent fileA _ _ _ _ (by decide) (by decide)⟩

/-- C6 (counterexample): after uploading `a.mp4` with bytes `bytes1`,
resubmitting `a.mp4` with the different bytes `bytes2` performs no
upload at all: the slot still holds the handle produced from `bytes1`.
Name equality alone suppresses the upload of genuinely changed
content. -/
theorem name_suppresses_fresh_bytes_counterexample :
    (("bytes1").toList ≠ ("bytes2").toList) ∧
    (handleUploadSlot none (("a.mp4").toList) (("bytes1").toList) (.ok ()) uploadStub).slot =
      some { display_name := ("a.mp4").toList, name := ("bytes1").toList, state := .READY } ∧
    handleUploadSlot
        (handleUploadSlot none (("a.mp4").toList) (("bytes1").toList) (.ok ()) uploadStub).slot
        (("a.mp4").toList) (("bytes2").toList) (.ok ()) uploadStub =
      { slot := some { display_name := ("a.mp4").toList, name := ("bytes1").toList,
                       state := .READY }
        deleteAttempted := false
        uploadPerformed := false } :=
  ⟨by decide, by decide, by decide⟩

/-- C6 (amended): when the stored asset's `display_name` equals the new
submission's name, the slot logic performs no upload and keeps the old
handle, even when the new bytes differ from the previously uploaded
ones — the known name-comparison fragility of spec section 9. -/
theorem name_equality_suppresses_upload (f : GFile)
    (newName oldBytes newBytes : List Char)
    (deleteResult : Except DeleteErr Unit)
    (uploadAndProcess : List Char → List Char → Option GFile)
    (hname : f.display_name = newName) (_hbytes : oldBytes ≠ newBytes) :
    (handleUploadSlot (some f) newName newBytes deleteResult uploadAndProcess).uploadPerformed
        = false ∧
    (handleUploadSlot (some f) newName newBytes deleteResult uploadAndProcess).slot = some f := by
  simp [handleUploadSlot, hname]

/-- Witness for `name_equality_suppresses_upload` at concrete data. -/
theorem name_equality_suppresses_upload_witness :
    (fileA.display_name = ("a.mp4").toList ∧ ("bytes1").toList ≠ ("bytes2").toList) ∧
    (handleUploadSlot (some fileA) (("a.mp4").toList) (("bytes2").toList) (.ok ())
        uploadStub).uploadPerformed = false ∧
    (handleUploadSlot (some fileA) (("a.mp4").toList) (("bytes2").toList) (.ok ())
        uploadStub).slot = some fileA :=
  ⟨⟨by decide, by decide⟩,
    name_equality_suppresses_upload fileA _ (("bytes1").toList) _ _ _ (by decide) (by decide)⟩

/-- C8: replacing an asset whose `display_name` differs issues a delete
of the previous remote asset and then uploads the new one; the outcome
is identical whether the delete raised or succeeded (the
`except Exception: pass` swallows every delete error), so a delete
failure neither propagates nor prevents the upload. -/
theorem delete_swallowed (f : GFile) (newName newBytes : List Char) (e : DeleteErr)
    (uploadAndProcess : List Char → List Char → Option GFile)
    (hname : f.display_name ≠ newName) :
    handleUploadSlot (some f) newName newBytes (.error e) uploadAndProcess =
      handleUploadSlot (some f) newName newBytes (.ok ()) uploadAndProcess ∧
    (handleUploadSlot (some f) newName newBytes (.error e) uploadAndProcess).deleteAttempted
        = true ∧
    (handleUploadSlot (some f) newName newBytes (.error e) uploadAndProcess).uploadPerformed
        = true ∧
    (handleUploadSlot (some f) newName newBytes (.error e) uploadAndProcess).slot =
      uploadAndProcess newName newBytes := by
  simp [handleUploadSlot, hname]

/-- Witness for `delete_swallowed`: replacing `a.mp4` by `b.mp4` while
the delete call errors. -/
theorem delete_swallowed_witness :
    fileA.display_name ≠ ("b.mp4").toList ∧
    handleUploadSlot (some fileA) (("b.mp4").toList) (("bytes2").toList)
        (.error .apiError) uploadStub =
      handleUploadSlot (some fileA) (("b.mp4").toList) (("bytes2").toList) (.ok ()) uploadStub ∧
    (handleUploadSlot (some fileA) (("b.mp4").toList) (("bytes2").toList)
        (.error .apiError) uploadStub).deleteAttempted = true ∧
    (handleUploadSlot (some fileA) (("b.mp4").toList) (("bytes2").toList)
        (.error .apiError) uploadStub).uploadPerformed = true ∧
    (handleUploadSlot (some fileA) (("b.mp4").toList) (("bytes2").toList)
        (.error .apiError) uploadStub).slot = uploadStub (("b.mp4").toList) (("bytes2").toList) :=
  ⟨by decide, delete_swallowed fileA _ _ .apiError uploadStub (by decide)⟩

/-- C1 (counterexample): when `json.loads` parses the extracted payload
to 15 well-formed items, the Structured Detection branch displays all 15
items verbatim: there is no validation step, no truncation to 10, and no
diagnostics — the 10-item cap lives only in the prompt wording. -/
theorem validator_cap_counterexample :
    structuredDetectionBranch loads15 (("[15 items]").toList) =
      .displayedJson (List.range 15) (("[15 items]").toList) ∧
    (List.range 15).length = 15 :=
  ⟨by decide, by decide⟩

/-- C1 (amended): the Structured Detection branch delivers the parse of
the extracted payload unmodified — whatever number of items `json.loads`
produces is displayed, with no cap, no truncation and no per-item
diagnostics enforced by the extractor or any validator. -/
theorem structured_no_cap {α : Type} (jsonLoads : List Char → Except Unit α)
    (respText rawJson : List Char) (v : α)
    (hx : extract_json_payload respText = .ok rawJson)
    (hl : jsonLoads rawJson = .ok v) :
    structuredDetectionBranch jsonLoads respText = .displayedJson v rawJson := by
  simp [structuredDetectionBranch, hx, hl]

/-- Witness for `structured_no_cap` at a concrete response. -/
theorem structured_no_cap_witness :
    extract_json_payload (("[1, 2]").toList) = .ok (("[1, 2]").toList) ∧
    loadsOne (("[1, 2]").toList) = .ok [7] ∧
    structuredDetectionBranch loadsOne (("[1, 2]").toList) =
      .displayedJson [7] (("[1, 2]").toList) :=
  ⟨by decide, rfl, structured_no_cap loadsOne _ _ _ (by decide) rfl⟩

/-- C7: in Structured Detection mode no extraction or parse failure
escapes: an extraction error degrades the outcome to the original raw
text tagged with that error, a `json.loads` failure degrades it to the
original raw text tagged as malformed JSON, and every fallback outcome
carries exactly the original response text. -/
theorem structured_failures_degrade {α : Type} (jsonLoads : List Char → Except Unit α)
    (respText : List Char) :
    (∀ e, extract_json_payload respText = .error e →
      structuredDetectionBranch jsonLoads respText = .rawFallback respText (.extractErr e)) ∧
    (∀ j, extract_json_payload respText = .ok j → jsonLoads j = .error () →
      structuredDetectionBranch jsonLoads respText = .rawFallback respText .malformedJson) ∧
    (∀ t r, structuredDetectionBranch jsonLoads respText = .rawFallback t r → t = respText) := by
  refine ⟨?_, ?_, ?_⟩
  · intro e he
    simp [structuredDetectionBranch, he]
  · intro j hj hl
    simp [structuredDetectionBranch, hj, hl]
  · intro t r h
    unfold structuredDetectionBranch at h
    cases hx : extract_json_payload respText with
    | error e =>
      rw [hx] at h
      simp at h
      exact h.1.symm
    | ok j =>
      rw [hx] at h
      simp at h
      cases hl : jsonLoads j with
      | error u => rw [hl] at h; simp at h; exact h.1.symm
      | ok v => rw [hl] at h; simp at h

/-- Witness for `structured_failures_degrade`: a response with no JSON
payload degrades to the original text plus the NoJsonFound reason. -/
theorem structured_failures_degrade_witness :
    extract_json_payload (("no valid payload here").toList) =
      .error (.noJsonFound (("no valid payload here").toList)) ∧
    structuredDetectionBranch loadsOne (("no valid payload here").toList) =
      .rawFallback (("no valid payload here").toList)
        (.extractErr (.noJsonFound (("no valid payload here").toList))) :=
  ⟨by decide, (structured_failures_degrade loadsOne _).1 _ (by decide)⟩

/-- C3: for input that is non-empty after trimming, the extractor
dispatches over its three strategies in the source's fixed order: a
successful fenced-block search wins outright, the whole
bracket-delimited trimmed text is returned only when the fenced search
failed, and the first `[...]` span is returned only when both earlier
strategies failed. -/
theorem extract_cascade (raw : List Char) (h : pyStrip raw ≠ []) :
    (∀ g, codeBlockSearch (pyStrip raw) = some g → extract_json_payload raw = .ok g) ∧
    (codeBlockSearch (pyStrip raw) = none →
      (pyStrip raw).head? = some '[' ∧ (pyStrip raw).getLast? = some ']' →
      extract_json_payload raw = .ok (pyStrip raw)) ∧
    (codeBlockSearch (pyStrip raw) = none →
      ¬((pyStrip raw).head? = some '[' ∧ (pyStrip raw).getLast? = some ']') →
      ∀ g, listSearchGo (pyStrip raw) = some g →
        extract_json_payload raw = .ok (pyStrip g)) := by
  refine ⟨?_, ?_, ?_⟩
  · intro g hg
    simp [extract_json_payload, h, hg]
  · intro hc hb
    simp [extract_json_payload, h, hc, hb]
  · intro hc hb g hg
    simp [extract_json_payload, h, hc, hb, hg]

/-- Witness for `extract_cascade`: the fenced block takes precedence
even when the whole trimmed text is bracket-delimited and contains
other spans. -/
theorem extract_cascade_witness :
    pyStrip (("[x ```[1]``` y]").toList) ≠ [] ∧
    codeBlockSearch (pyStrip (("[x ```[1]``` y]").toList)) = some (("[1]").toList) ∧
    extract_json_payload (("[x ```[1]``` y]").toList) = .ok (("[1]").toList) :=
  ⟨by decide, by decide, (extract_cascade _ (by decide)).1 _ (by decide)⟩

/-- A text with no `[` at all has no `[...]` span. -/
theorem spanFree_of_not_mem {l : List Char} (h : '[' ∉ l) : SpanFree l := by
  intro a b hab _
  exact h (by rw [hab]; simp)

/-- C4 (counterexample): the input has no `[...]` span at all, yet the
extractor does not fail with NoJsonFound: the fenced-block strategy
succeeds and returns non-JSON text.  The second input shows the empty
input also evades NoJsonFound, failing with EmptyResponse instead. -/
theorem nojson_span_counterexample :
    ('[' ∉ ("```x```").toList) ∧
    extract_json_payload (("```x```").toList) = .ok (("x").toList) ∧
    extract_json_payload ([]) = .error .emptyResponse :=
  ⟨by decide, by decide, by decide⟩

/-- Trimming yields an infix of the original text. -/
theorem pyStrip_infix (l : List Char) : ∃ s t, l = s ++ pyStrip l ++ t := by
  obtain ⟨s, hs⟩ := List.dropWhile_suffix (l := l) pyIsSpace
  obtain ⟨u, hu⟩ := List.dropWhile_suffix (l := (l.dropWhile pyIsSpace).reverse) pyIsSpace
  refine ⟨s, u.reverse, ?_⟩
  have hm : l.dropWhile pyIsSpace = pyStrip l ++ u.reverse := by
    have h2 := congrArg List.reverse hu
    rw [List.reverse_append, List.reverse_reverse] at h2
    simp only [pyStrip]
    exact h2.symm
  calc l = s ++ l.dropWhile pyIsSpace := hs.symm
    _ = s ++ (pyStrip l ++ u.reverse) := by rw [hm]
    _ = s ++ pyStrip l ++ u.reverse := (List.append_assoc s _ _).symm

/-- Span-freeness passes to any infix, in particular to the trimmed
text. -/
theorem SpanFree.of_append {s m t l : List Char} (hl : l = s ++ m ++ t)
    (h : SpanFree l) : SpanFree m := by
  intro a b hm hmem
  exact h (s ++ a) (b ++ t)
    (by rw [hl, hm]; simp [List.append_assoc]) (List.mem_append_left t hmem)

/-- With no `]` in the tail, the lazy span search finds no closing
bracket. -/
theorem spanTo_eq_none {l : List Char} (h : ']' ∉ l) : spanTo l = none := by
  induction l with
  | nil => rfl
  | cons c rest ih =>
    have hc : c ≠ ']' := by
      intro hh
      exact h (by rw [hh]; exact List.mem_cons_self _ _)
    have hr : ']' ∉ rest := fun hm => h (List.mem_cons_of_mem c hm)
    simp [spanTo, hc, ih hr]

/-- On span-free text the `[...]` regex search fails. -/
theorem listSearchGo_eq_none {l : List Char} (h : SpanFree l) : listSearchGo l = none := by
  induction l with
  | nil => rfl
  | cons c rest ih =>
    by_cases hc : c = '['
    · subst hc
      have hr : ']' ∉ rest := h [] rest rfl
      simp [listSearchGo, spanTo_eq_none hr]
    · have hrest : SpanFree rest := by
        intro a b hab hmem
        exact h (c :: a) b (by rw [hab]; rfl) hmem
      simp [listSearchGo, hc, ih hrest]

/-- An element produced by `getLast?` is a member. -/
theorem mem_of_getLast_eq {l : List Char} {a : Char} (h : l.getLast? = some a) :
    a ∈ l := by
  induction l with
  | nil => simp at h
  | cons c rest ih =>
    cases rest with
    | nil =>
      simp [List.getLast?] at h
      rw [h]
      exact List.mem_cons_self _ _
    | cons d ds =>
      rw [List.getLast?_cons_cons] at h
      exact List.mem_cons_of_mem c (ih h)

/-- Span-free text cannot both start with `[` and end with `]`. -/
theorem spanFree_not_brackets {text : List Char} (h : SpanFree text) :
    ¬(text.head? = some '[' ∧ text.getLast? = some ']') := by
  rintro ⟨hh, hl⟩
  cases text with
  | nil => simp at hh
  | cons c rest =>
    simp at hh
    subst hh
    have hr : ']' ∉ rest := h [] rest rfl
    rcases List.mem_cons.mp (mem_of_getLast_eq hl) with h1 | h2
    · simp at h1
    · exact hr h2

/-- C4 (amended): when the input is non-empty after trimming, has no
`[...]` span and has no fenced code block, the extractor fails with
NoJsonFound carrying the first at-most-100 characters of the original
text — and, being total, raises nothing else. -/
theorem extract_nojson (raw : List Char) (h1 : pyStrip raw ≠ [])
    (h2 : codeBlockSearch (pyStrip raw) = none) (h3 : SpanFree raw) :
    extract_json_payload raw = .error (.noJsonFound (raw.take 100)) ∧
    (raw.take 100).length ≤ 100 := by
  have hsf : SpanFree (pyStrip raw) := by
    obtain ⟨s, t, hst⟩ := pyStrip_infix raw
    exact SpanFree.of_append hst h3
  have hb := spanFree_not_brackets hsf
  have hls := listSearchGo_eq_none hsf
  constructor
  · simp [extract_json_payload, h1, h2, hb, hls]
  · simp [List.length_take]

/-- Witness for `extract_nojson` at a concrete span-free input. -/
theorem extract_nojson_witness :
    (pyStrip (("hello world").toList) ≠ [] ∧
      codeBlockSearch (pyStrip (("hello world").toList)) = none ∧
      '[' ∉ ("hello world").toList) ∧
    extract_json_payload (("hello world").toList) =
      .error (.noJsonFound ((("hello world").toList).take 100)) ∧
    ((("hello world").toList).take 100).length ≤ 100 :=
  ⟨⟨by decide, by decide, by decide⟩,
    extract_nojson (("hello world").toList) (by decide) (by decide)
      (spanFree_of_not_mem (by decide))⟩

/-- `dropWhile` keeps a list whose head is not accepted. -/
theorem dropWhile_eq_self_of_head {l : List Char}
    (h : ∀ c, l.head? = some c → pyIsSpace c = false) :
    l.dropWhile pyIsSpace = l := by
  cases l with
  | nil => rfl
  | cons a as =>
    rw [List.dropWhile_cons, h a rfl]
    simp

/-- Trimming keeps a text whose first and last characters are not
whitespace. -/
theorem pyStrip_eq_self {l : List Char}
    (h1 : ∀ c, l.head? = some c → pyIsSpace c = false)
    (h2 : ∀ c, l.getLast? = some c → pyIsSpace c = false) :
    pyStrip l = l := by
  simp only [pyStrip]
  rw [dropWhile_eq_self_of_head h1]
  rw [dropWhile_eq_self_of_head (fun c hc => h2 c (by rwa [List.head?_reverse] at hc))]
  exact List.reverse_reverse l

/-- The fence search enters right after a leading fence. -/
theorem dropToTicks_ticks (l : List Char) : dropToTicks (ticks ++ l) = some l := by
  simp [dropToTicks, ticks]

/-- With no backtick inside `l`, the closing-fence search returns
exactly `l`. -/
theorem takeToTicks_append {l : List Char} (h : '\x60' ∉ l) :
    takeToTicks (l ++ ticks) = some l := by
  induction l with
  | nil => decide
  | cons c rest ih =>
    have hc : c ≠ '\x60' := by
      intro hh
      exact h (by rw [hh]; exact List.mem_cons_self _ rest)
    have hr : '\x60' ∉ rest := fun hm => h (List.mem_cons_of_mem c hm)
    simp [takeToTicks, hc, ih hr]

/-- C10 (counterexample): the tag `jsonnet` is a language identifier
other than the literal tag `json`, yet the extractor does not return
the identifier together with the body: the `(?:json)?` group strips the
four-character prefix `json` from it, yielding `net` plus the body. -/
theorem fenced_json_prefix_counterexample :
    ("jsonnet").toList ≠ jsonTag ∧
    extract_json_payload (("```jsonnet\n[1]\n```").toList) = .ok (("net\n[1]").toList) ∧
    (("net\n[1]").toList : List Char) ≠ ("jsonnet\n[1]").toList :=
  ⟨by decide, by decide, by decide⟩

/-- C10 (amended): when the first four characters of the first fenced
block's content are not `json` — here the content starts with a
non-whitespace, non-backtick character `c` and continues with
backtick-free `mid` — the extractor returns the tag together with the
body, trimmed.  A tag merely *beginning* with `json` (such as `jsonnet`)
has that four-character prefix stripped instead, as the counterexample
shows. -/
theorem fenced_tag_retained (c : Char) (mid : List Char)
    (hws : pyIsSpace c = false) (hct : c ≠ '\x60') (hmt : '\x60' ∉ mid)
    (hjson : ((c :: mid) ++ ticks).take 4 ≠ jsonTag) :
    extract_json_payload (ticks ++ (c :: mid) ++ ticks) = .ok (pyStrip (c :: mid)) := by
  have hnotick : '\x60' ∉ c :: mid := by
    intro hm
    rcases List.mem_cons.mp hm with h1 | h2
    · exact hct h1.symm
    · exact hmt h2
  have hdw : ((c :: mid) ++ ticks).dropWhile pyIsSpace = (c :: mid) ++ ticks :=
    dropWhile_eq_self_of_head (by
      intro d hd
      simp [List.cons_append] at hd
      rw [← hd]
      exact hws)
  have hcbs : codeBlockSearch (ticks ++ (c :: mid) ++ ticks) = some (pyStrip (c :: mid)) := by
    rw [List.append_assoc]
    simp only [codeBlockSearch, dropToTicks_ticks]
    rw [if_neg hjson, hdw, takeToTicks_append hnotick]
  have hstrip : pyStrip (ticks ++ (c :: mid) ++ ticks) = ticks ++ (c :: mid) ++ ticks := by
    apply pyStrip_eq_self
    · intro d hd
      simp [ticks] at hd
      rw [← hd]
      decide
    · intro d hd
      rw [← List.head?_reverse] at hd
      simp [List.reverse_append, ticks] at hd
      rw [← hd]
      decide
  have hne : ticks ++ (c :: mid) ++ ticks ≠ [] := by simp [ticks]
  simp only [extract_json_payload]
  rw [hstrip, if_neg hne, hcbs]

/-- Witness for `fenced_tag_retained`: the fenced block tagged `python`
yields the tag together with the body. -/
theorem fenced_tag_retained_witness :
    (pyIsSpace 'p' = false ∧ 'p' ≠ '\x60' ∧ '\x60' ∉ ("ython\n[1, 2]\n").toList ∧
      (('p' :: ("ython\n[1, 2]\n").toList) ++ ticks).take 4 ≠ jsonTag) ∧
    extract_json_payload (("```python\n[1, 2]\n```").toList) =
      .ok (("python\n[1, 2]").toList) :=
  ⟨⟨by decide, by decide, by decide, by decide⟩, by
    have h := fenced_tag_retained 'p' (("ython\n[1, 2]\n").toList)
      (by decide) (by decide) (by decide) (by decide)
    have heq : ticks ++ ('p' :: ("ython\n[1, 2]\n").toList) ++ ticks =
        ("```python\n[1, 2]\n```").toList := by decide
    have heq2 : pyStrip ('p' :: ("ython\n[1, 2]\n").toList) = ("python\n[1, 2]").toList := by
      decide
    rw [heq, heq2] at h
    exact h⟩
